import Mathlib

/-
Verification development for the MT5 historical-data ingestion pipeline
(`mt5_database_builder.py`).  The Python source is shallowly embedded below:

* a pandas cell holding a float is modelled by `RawVal` (NaN, +inf, -inf, or a
  rational number); `pd.isna`, Python's `<= 0` comparison and `int(float(.))`
  truncation are modelled field by field;
* a raw bar (one DataFrame row) is `RawRow`, with `Option` for absent columns;
* the SQLite store is a pair of lists (`price_data`, `download_stats`);
  `INSERT OR IGNORE` against the UNIQUE(symbol, timeframe, time) index is
  modelled explicitly; backend (`sqlite3.Error`) failures are injected through
  a `fails` fault predicate on records; `connection.commit()` is modelled as a
  no-op (transaction durability is not modelled, only which INSERT statements
  execute and their rowcounts);
* Python exceptions that the code catches are folded into the observable
  outcome of the handler that catches them.
-/

namespace MT5DB

/-- One pandas cell coming from an MT5 rates array: a float64 that is either
NaN (also covering None/NaT, which `pd.isna` treats alike), an infinity, or a
finite number (modelled as a rational). -/
inductive RawVal where
  | nan
  | inf
  | negInf
  | num (q : Rat)
deriving DecidableEq, Repr

/-- `pd.isna` on a cell. -/
def RawVal.isna : RawVal → Bool
  | .nan => true
  | _ => false

/-- Python's `value <= 0` on a float (NaN compares False; the code tests
`pd.isna` first, so the NaN case is never reached on that path). -/
def RawVal.leZero : RawVal → Bool
  | .nan => false
  | .inf => false
  | .negInf => true
  | .num q => decide (q ≤ 0)

/-- Python's `int(float(v))`: truncation toward zero for finite values;
`none` models the `OverflowError` raised on an infinity. -/
def RawVal.toIntTrunc : RawVal → Option Int
  | .num q => some (if 0 ≤ q then Int.floor q else Int.ceil q)
  | _ => none

/-- Python's `s[:n]` slice: the first `n` code points.  (Stated on the
character list so that it reduces; Lean's byte-position-based `String.take`
computes the same string.) -/
def strTake (s : String) (n : Nat) : String :=
  ⟨s.toList.take n⟩

/-- Python's `s.upper()`, per code point.  (Same as `String.toUpper`, stated
on the character list so that it reduces.) -/
def strUpper (s : String) : String :=
  ⟨s.toList.map Char.toUpper⟩

/-- One row of the DataFrame handed to `save_price_data` (lines 404-497 read
these keys); a `none` field models an absent column. -/
structure RawRow where
  time : Option RawVal
  open_ : Option RawVal
  high : Option RawVal
  low : Option RawVal
  close : Option RawVal
  tick_volume : Option RawVal
  spread : Option RawVal
  real_volume : Option RawVal
deriving DecidableEq, Repr

/-- The tuple built at lines 471-483 and bound as SQL parameters.  The OHLC
fields keep the `RawVal` that passed the checks (the code stores the float
itself, which can be +inf, since finiteness is never tested). -/
structure PriceRecord where
  symbol : String
  timeframe : String
  time : Int
  open_ : RawVal
  high : RawVal
  low : RawVal
  close : RawVal
  volume : Int
  tick_volume : Int
  spread : Int
  real_volume : Int
deriving DecidableEq, Repr

/-- Why a row was dropped from the batch. -/
inductive Reject where
  /-- lines 411-414: `time` absent or `pd.isna`. -/
  | missingTimestamp
  /-- lines 422-439: the named OHLC field absent, NaN, or `<= 0`. -/
  | invalidOHLC (field : String)
  /-- line 494: an exception escaped the row body and was caught by the
  per-row handler (`int()` overflow on an infinite timestamp or an infinite
  tick_volume/spread/real_volume, which `except (ValueError, TypeError)`
  does not catch). -/
  | rowError
deriving DecidableEq, Repr

/-- Outcome of processing one row of the loop at lines 404-497. -/
inductive RowOutcome where
  | accepted (r : PriceRecord)
  | rejected (why : Reject)
deriving DecidableEq, Repr

def RowOutcome.isRejected : RowOutcome → Bool
  | .accepted _ => false
  | .rejected _ => true

/-- One iteration of the `for field in required_fields` loop (lines 422-439):
`none` means the loop `break`s (field absent, NaN or `<= 0`); for a numeric
cell `float(value)` cannot raise, so the conversion branch never fires. -/
def checkField (v : Option RawVal) : Option RawVal :=
  match v with
  | none => none
  | some v => if v.isna || v.leZero then none else some v

/-- The volume/spread/real_volume defaulting of lines 443-469: absent or NaN
cells default to 0; a `none` result models the `OverflowError` of
`int(float(±inf))`, which the inner `except (ValueError, TypeError)` does not
catch, so it aborts the whole row via the outer handler. -/
def intFieldDefault : Option RawVal → Option Int
  | none => some 0
  | some .nan => some 0
  | some v => v.toIntTrunc

/-- The body of the per-row loop of `save_price_data` (lines 404-497):
timestamp check first (lines 411-416), then open/high/low/close in order
(lines 419-439), then the defaulted integer fields, then the record tuple
(lines 471-483) with `str(symbol)[:50]` and `str(timeframe)[:10]`. -/
def sanitizeRow (symbol timeframe : String) (row : RawRow) : RowOutcome :=
  match row.time with
  | none => .rejected .missingTimestamp
  | some t =>
    if t.isna then .rejected .missingTimestamp
    else
      match t.toIntTrunc with
      | none => .rejected .rowError
      | some time_val =>
        match checkField row.open_ with
        | none => .rejected (.invalidOHLC "open")
        | some o =>
          match checkField row.high with
          | none => .rejected (.invalidOHLC "high")
          | some h =>
            match checkField row.low with
            | none => .rejected (.invalidOHLC "low")
            | some l =>
              match checkField row.close with
              | none => .rejected (.invalidOHLC "close")
              | some c =>
                match intFieldDefault row.tick_volume with
                | none => .rejected .rowError
                | some tv =>
                  match intFieldDefault row.spread with
                  | none => .rejected .rowError
                  | some sp =>
                    match intFieldDefault row.real_volume with
                    | none => .rejected .rowError
                    | some rv =>
                      .accepted
                        ⟨strTake symbol 50, strTake timeframe 10, time_val,
                         o, h, l, c, tv, tv, sp, rv⟩

/-- The whole preparation loop: `data_to_insert` (in DataFrame order) and
`problematic_rows`. -/
def prepareRecords (symbol timeframe : String) : List RawRow → List PriceRecord × Nat
  | [] => ([], 0)
  | row :: rest =>
    let acc := prepareRecords symbol timeframe rest
    match sanitizeRow symbol timeframe row with
    | .accepted r => (r :: acc.1, acc.2)
    | .rejected _ => (acc.1, acc.2 + 1)

/-- One row of the `download_stats` table (schema at lines 179-190; the insert
at lines 565-576 always passes `success = True`). -/
structure StatRow where
  symbol : String
  timeframe : String
  bars_count : Nat
  first_date : Option RawVal
  last_date : Option RawVal
  success : Bool
deriving DecidableEq, Repr

/-- The SQLite store: the two tables the claims are about.  `symbol_info` is
not modelled (no claim touches it). -/
structure DB where
  price_data : List PriceRecord
  download_stats : List StatRow
deriving DecidableEq, Repr

/-- The UNIQUE(symbol, timeframe, time) dedup key of `price_data`
(line 156). -/
def sameKey (a b : PriceRecord) : Bool :=
  a.symbol == b.symbol && a.timeframe == b.timeframe && a.time == b.time

/-- `cursor.execute('INSERT OR IGNORE INTO price_data ...', r)`: the result is
the new table and `cursor.rowcount` (1 if inserted, 0 if the unique index
ignored the row); `none` models a `sqlite3.Error` raised by the backend, as
chosen by the injected fault model `fails`. -/
def insertOrIgnore (fails : PriceRecord → Bool) (tbl : List PriceRecord)
    (r : PriceRecord) : Option (List PriceRecord × Nat) :=
  if fails r then none
  else if tbl.any (sameKey r) then some (tbl, 0)
  else some (tbl ++ [r], 1)

/-- `cursor.executemany` (lines 526-530): statements run one at a time; on an
error the earlier inserts stay applied and the error propagates (third
component `false`).  On success the second component is the accumulated
`cursor.rowcount`. -/
def executeMany (fails : PriceRecord → Bool) (tbl : List PriceRecord) :
    List PriceRecord → List PriceRecord × Nat × Bool
  | [] => (tbl, 0, true)
  | r :: rest =>
    match insertOrIgnore fails tbl r with
    | none => (tbl, 0, false)
    | some p =>
      let out := executeMany fails p.1 rest
      (out.1, p.2 + out.2.1, out.2.2)

/-- The single-record fallback loop (lines 542-554): insert one at a time,
accumulate rowcounts, and `break` on the first `sqlite3.Error`. -/
def fallbackInserts (fails : PriceRecord → Bool) (tbl : List PriceRecord) :
    List PriceRecord → List PriceRecord × Nat
  | [] => (tbl, 0)
  | r :: rest =>
    match insertOrIgnore fails tbl r with
    | none => (tbl, 0)
    | some p =>
      let out := fallbackInserts fails p.1 rest
      (out.1, p.2 + out.2)

/-- The `download_stats` insert of lines 565-576: bar count is `len(df)`,
first/last date come from the first/last `time` cell, `success` is the
literal `True`. -/
def appendStat (stats : List StatRow) (symbol timeframe : String)
    (df : List RawRow) : List StatRow :=
  stats ++ [⟨symbol, timeframe, df.length,
             (df.head?).bind (fun r => r.time),
             (df.getLast?).bind (fun r => r.time), true⟩]

/-- `save_price_data` (lines 386-588).  Control flow, in source order:
prepare `data_to_insert`; return 0 when it is empty (line 503); test-insert
the first record and return 0 on a backend error there (lines 505-521, note
that `test_rows` is captured but never used afterwards); batch-insert the
tail; on success return `cursor.rowcount + 1` — the `+ 1` for the test record
is unconditional (line 532) even when the test insert was ignored as a
duplicate; on a batch error run the single-record fallback, and return its
count `+ 1` if it is positive, else 0 (lines 537-560); finally append a
`download_stats` row when `len(df) > 0 and rows_inserted > 0` (lines
562-579; the stats insert itself is assumed not to fail).  Commits are
no-ops in the model. -/
def save_price_data (fails : PriceRecord → Bool) (symbol timeframe : String)
    (df : List RawRow) (db : DB) : DB × Nat :=
  match (prepareRecords symbol timeframe df).1 with
  | [] => (db, 0)
  | r0 :: rest =>
    match insertOrIgnore fails db.price_data r0 with
    | none => (db, 0)
    | some p =>
      let em := executeMany fails p.1 rest
      if em.2.2 then
        let rows_inserted := em.2.1 + 1
        let stats :=
          if 0 < df.length && 0 < rows_inserted then
            appendStat db.download_stats symbol timeframe df
          else db.download_stats
        (⟨em.1, stats⟩, rows_inserted)
      else
        let fb := fallbackInserts fails em.1 rest
        if 0 < fb.2 then
          let rows_inserted := fb.2 + 1
          let stats :=
            if 0 < df.length && 0 < rows_inserted then
              appendStat db.download_stats symbol timeframe df
            else db.download_stats
          (⟨fb.1, stats⟩, rows_inserted)
        else
          (⟨fb.1, db.download_stats⟩, 0)

/-- One value of `results['timeframes'][tf]` (lines 327-344, 356-370). -/
structure TFResult where
  bars_count : Nat
  bars_saved : Nat
  success : Bool
deriving DecidableEq, Repr

/-- The `results` dict built by `download_symbol_data` (line 291). -/
structure SymResult where
  symbol : String
  timeframes : List (String × TFResult)
  total_bars : Nat
  success : Bool
deriving DecidableEq, Repr

/-- The keys of `self.timeframes` (lines 30-40). -/
def timeframe_keys : List String :=
  ["M1", "M5", "M15", "M30", "H1", "H4", "D1", "W1", "MN1"]

/-- Caller-side timestamp cleaning (lines 320-323):
`pd.to_datetime(..., errors='coerce')` turns NaN and out-of-range values into
NaT and `dropna` removes those rows, so only rows with a finite numeric
`time` survive. -/
def cleanTime (rows : List RawRow) : List RawRow :=
  rows.filter fun r =>
    match r.time with
    | some (.num _) => true
    | _ => false

/-- The MarketDataSource collaborator: `mt5.symbol_select` and
`mt5.copy_rates_from_pos` (an empty list models both `None` and a zero-length
rates array). -/
structure Source where
  selectable : String → Bool
  fetch : String → String → List RawRow

/-- The per-timeframe loop of `download_symbol_data` (lines 301-375), run on
a symbol that passed `symbol_select`.  Returns the store, the
`results['timeframes']` entries in insertion order, the bars saved
(accumulated into `results['total_bars']`), and the trace of
`copy_rates_from_pos` calls actually issued.  An unsupported tag is skipped
with `continue` before any fetch (lines 302-304). -/
def downloadLoop (src : Source) (fails : PriceRecord → Bool) (symbol : String)
    (db : DB) : List String → DB × List (String × TFResult) × Nat × List (String × String)
  | [] => (db, [], 0, [])
  | tf :: rest =>
    if timeframe_keys.contains tf then
      let rates := src.fetch symbol tf
      let step : TFResult × DB × Nat :=
        if rates.length = 0 then (⟨0, 0, false⟩, db, 0)
        else
          let df := cleanTime rates
          if df.length = 0 then (⟨0, 0, false⟩, db, 0)
          else
            let out := save_price_data fails symbol tf df db
            (⟨df.length, out.2, 0 < out.2⟩, out.1, out.2)
      let next := downloadLoop src fails symbol step.2.1 rest
      (next.1, (tf, step.1) :: next.2.1, step.2.2 + next.2.2.1,
       (symbol, tf) :: next.2.2.2)
    else
      downloadLoop src fails symbol db rest

/-- `download_symbol_data` (lines 289-384): if `symbol_select` fails the
result is marked failed with no timeframe entries and no fetches; otherwise
`success` stays `True` whatever the per-timeframe outcomes. -/
def download_symbol_data (src : Source) (fails : PriceRecord → Bool)
    (symbol : String) (timeframes : List String) (db : DB) :
    DB × SymResult × List (String × String) :=
  if src.selectable symbol then
    let out := downloadLoop src fails symbol db timeframes
    (out.1, ⟨symbol, out.2.1, out.2.2.1, true⟩, out.2.2.2)
  else
    (db, ⟨symbol, [], 0, false⟩, [])

/-- `self.stats` (lines 43-50), restricted to the fields the claims use. -/
structure Stats where
  symbols_processed : Nat
  total_bars_downloaded : Nat
  symbols_completed : List String
  symbols_failed : List String
deriving DecidableEq, Repr

def initStats : Stats := ⟨0, 0, [], []⟩

/-- The `as_completed` aggregation loop of `build_database` (lines 642-668),
together with the `total_bars_downloaded` update done inside each task
(line 347).  Symbol tasks run concurrently in the source; here they are
executed sequentially in an arbitrary completion order (the order is the
function's argument), which is the serialization the claims quantify over. -/
def run_symbols (src : Source) (fails : PriceRecord → Bool)
    (timeframes : List String) :
    List String → DB → Stats → DB × Stats × List (String × String)
  | [], db, st => (db, st, [])
  | symbol :: rest, db, st =>
    let out := download_symbol_data src fails symbol timeframes db
    let res := out.2.1
    let st' : Stats :=
      ⟨st.symbols_processed + 1,
       st.total_bars_downloaded + res.total_bars,
       if res.success then st.symbols_completed ++ [symbol]
       else st.symbols_completed,
       if res.success then st.symbols_failed
       else st.symbols_failed ++ [symbol]⟩
    let next := run_symbols src fails timeframes rest out.1 st'
    (next.1, next.2.1, out.2.2 ++ next.2.2)

/-- One whole run over a set of symbols, starting from an empty store and
freshly reset statistics. -/
def build_run (src : Source) (fails : PriceRecord → Bool)
    (order timeframes : List String) : DB × Stats × List (String × String) :=
  run_symbols src fails timeframes order ⟨[], []⟩ initStats

/-- `pat` occurs as a contiguous run inside `l`. -/
def listInfixOf : List Char → List Char → Bool
  | pat, [] => pat.isEmpty
  | pat, a :: as => pat.isPrefixOf (a :: as) || listInfixOf pat as

/-- Substring containment, Python's `pattern in symbol_upper`. -/
def strContains (hay pat : String) : Bool :=
  listInfixOf pat.toList hay.toList

def index_patterns : List String :=
  ["US30", "NAS100", "SPX500", "UK100", "GER30", "FRA40", "JPN225",
   "AUS200", "USTEC", "VIX"]

def forex_patterns : List String :=
  ["EUR", "USD", "GBP", "JPY", "CHF", "AUD", "CAD", "NZD"]

def commodity_patterns : List String :=
  ["GOLD", "SILVER", "OIL", "BRENT", "XAU", "XAG", "USO"]

def crypto_patterns : List String :=
  ["BTC", "ETH", "LTC", "XRP", "ADA", "DOT"]

def matchesAny (upper : String) (pats : List String) : Bool :=
  pats.any fun p => strContains upper p

/-- `classify_symbol` (lines 263-287): ordered pattern matching on the
upper-cased ticker; the forex branch additionally requires
`len(symbol) == 6`. -/
def classify_symbol (symbol : String) : String :=
  let symbol_upper := strUpper symbol
  if matchesAny symbol_upper index_patterns then "INDEX"
  else if symbol.length == 6 && matchesAny symbol_upper forex_patterns then
    "FOREX"
  else if matchesAny symbol_upper commodity_patterns then "COMMODITY"
  else if matchesAny symbol_upper crypto_patterns then "CRYPTO"
  else "OTHER"

/-- Spec-side characterisation of a bad timestamp cell: absent, NaN, or an
infinity (whose `int()` conversion raises). -/
def badTimeCell : Option RawVal → Bool
  | none => true
  | some (.num _) => false
  | some _ => true

/-- Spec-side characterisation of a rejected OHLC cell: absent, NaN, or
`<= 0`. -/
def badOHLCCell : Option RawVal → Bool
  | none => true
  | some v => v.isna || v.leZero

/-- Spec-side characterisation of a defaulted integer cell whose conversion
overflows (an infinity, which `except (ValueError, TypeError)` lets
through). -/
def intOverflowCell : Option RawVal → Bool
  | some .inf => true
  | some .negInf => true
  | _ => false

/-- The exact rejection condition of the per-row sanitizer, written from the
observable behaviour being claimed: bad timestamp, or some bad OHLC cell, or
an overflowing tick_volume/spread/real_volume cell. -/
def rejectCond (row : RawRow) : Bool :=
  badTimeCell row.time || badOHLCCell row.open_ || badOHLCCell row.high ||
  badOHLCCell row.low || badOHLCCell row.close ||
  intOverflowCell row.tick_volume || intOverflowCell row.spread ||
  intOverflowCell row.real_volume

/-- Observable actions of one `build_database` run (lines 606-678) and of
`cleanup` (lines 719-731). -/
inductive Action where
  | loadConfig
  | connectMT5
  | setupDatabase
  | downloads
  | reportStats
  | closeConnection
  | mt5Shutdown
deriving DecidableEq, Repr

/-- How a given run of `build_database` ends. -/
inductive RunScenario where
  /-- line 617-618: `connect_to_mt5` returns False, `return False`. -/
  | connectFails
  /-- line 621: `setup_database` re-raises (line 203); caught at line 674. -/
  | setupRaises
  /-- lines 630-632: nothing to process, `return False`. -/
  | noSymbols
  /-- a `KeyboardInterrupt` during the download phase: it is not an
  `Exception`, so the handler at line 674 does not catch it and it
  propagates past `build_database`. -/
  | interrupted
  /-- the run reaches `print_final_stats` and returns True. -/
  | completes
deriving DecidableEq, Repr

/-- How the `try` block of lines 611-672 exits. -/
inductive BodyExit where
  | ret (b : Bool)
  | exc
  | interrupt
deriving DecidableEq, Repr

/-- The `try` body (lines 611-672): actions performed and exit mode, per
scenario. -/
def tryBody : RunScenario → List Action × BodyExit
  | .connectFails => ([.loadConfig, .connectMT5], .ret false)
  | .setupRaises => ([.loadConfig, .connectMT5, .setupDatabase], .exc)
  | .noSymbols => ([.loadConfig, .connectMT5, .setupDatabase], .ret false)
  | .interrupted =>
    ([.loadConfig, .connectMT5, .setupDatabase, .downloads], .interrupt)
  | .completes =>
    ([.loadConfig, .connectMT5, .setupDatabase, .downloads, .reportStats],
     .ret true)

/-- `cleanup` (lines 719-731): close the store connection when one was
opened, shut MT5 down when connected. -/
def cleanupTrace (hasConnection mt5Connected : Bool) : List Action :=
  (if hasConnection then [Action.closeConnection] else []) ++
  (if mt5Connected then [Action.mt5Shutdown] else [])

/-- The `(self.connection is not None, self.mt5_connected)` state at the
moment the `finally` clause runs.  `self.connection` is assigned at line 137
before the schema statements, so a schema failure still leaves it set. -/
def connStateAt : RunScenario → Bool × Bool
  | .connectFails => (false, false)
  | .setupRaises => (true, true)
  | .noSymbols => (true, true)
  | .interrupted => (true, true)
  | .completes => (true, true)

/-- `build_database` control flow (lines 606-678): run the `try` body; an
`Exception` is caught and turned into `return False` (line 674); a
`KeyboardInterrupt` propagates (`none`); the `finally` clause (line 677)
appends the `cleanup` actions on every exit path. -/
def build_database (sc : RunScenario) : Option Bool × List Action :=
  let body := tryBody sc
  let conn := connStateAt sc
  let result : Option Bool :=
    match body.2 with
    | .ret b => some b
    | .exc => some false
    | .interrupt => none
  (result, body.1 ++ cleanupTrace conn.1 conn.2)

/-- A well-formed source bar at epoch `t` with OHLC `1,2,1,2` and
tick volume 5. -/
def validRow (t : Rat) : RawRow :=
  ⟨some (.num t), some (.num 1), some (.num 2), some (.num 1),
   some (.num 2), some (.num 5), none, none⟩

/-- The record `validRow t` sanitizes to under a symbol/timeframe that fits
the length caps. -/
def validRec (symbol timeframe : String) (t : Int) : PriceRecord :=
  ⟨symbol, timeframe, t, .num 1, .num 2, .num 1, .num 2, 5, 5, 0, 0⟩

/-- No backend failures. -/
def noFailure : PriceRecord → Bool := fun _ => false

/-- Fault model for the degradation scenarios: the backend raises
`sqlite3.Error` exactly on the record with epoch 42. -/
def failsAt42 : PriceRecord → Bool := fun r => r.time == 42

/-- Two valid bars, used for the double-write scenario. -/
def twoBars : List RawRow := [validRow 100, validRow 200]

/-- A batch whose third record hits a backend error at insert time and whose
fourth is individually valid. -/
def batchWithBadThird : List RawRow :=
  [validRow 1, validRow 2, validRow 42, validRow 3]

/-- A row whose `open` is +infinity and which is otherwise valid. -/
def infOpenRow : RawRow :=
  ⟨some (.num 100), some .inf, some (.num 2), some (.num 1),
   some (.num 2), none, none, none⟩

/-- A row with no timestamp and an invalid `close`, for the
timestamp-first ordering witness. -/
def noTimeRow : RawRow :=
  ⟨none, some (.num 1), some (.num 2), some (.num 1), some (.num 0),
   none, none, none⟩

/-- The end-to-end stub source: three valid H1 bars for any symbol, an empty
response for every other timeframe. -/
def endToEndSource : Source :=
  ⟨fun _ => true,
   fun _ tf => if tf == "H1" then [validRow 10, validRow 20, validRow 30]
               else []⟩

/-- C1: writing the same two valid bars twice leaves `price_data` unchanged
(store-level idempotence holds) and the first call returns 2, but the second
call returns 1, not 0: line 532 adds 1 for the test record unconditionally,
even though its `INSERT OR IGNORE` was ignored as a duplicate (the captured
`test_rows` rowcount is never used).  This contradicts the claim that the
second identical call returns zero and that duplicates do not count. -/
theorem claim_C1_second_call_returns_one :
    (save_price_data noFailure "EURUSD" "H1" twoBars ⟨[], []⟩).2 = 2 ∧
    (save_price_data noFailure "EURUSD" "H1" twoBars
        (save_price_data noFailure "EURUSD" "H1" twoBars ⟨[], []⟩).1).2 = 1 ∧
    (save_price_data noFailure "EURUSD" "H1" twoBars
          (save_price_data noFailure "EURUSD" "H1" twoBars ⟨[], []⟩).1).1.price_data
      = (save_price_data noFailure "EURUSD" "H1" twoBars ⟨[], []⟩).1.price_data := by
  decide

/-- C3: the claim is false on the code: `classify_symbol "XAUUSD"` is
`"FOREX"`, not `"COMMODITY"` (the forex branch — length 6 and containing
`"USD"` — fires before the commodity branch), and `classify_symbol "BTCUSD"`
is `"FOREX"`, not `"CRYPTO"`, for the same reason. -/
theorem claim_C3_counterexample :
    classify_symbol "XAUUSD" ≠ "COMMODITY" ∧
    classify_symbol "BTCUSD" ≠ "CRYPTO" := by
  decide

/-- C3 (amended): the fixture tickers map as the code does: US30 to INDEX,
EURUSD to FOREX, XAUUSD to FOREX, BTCUSD to FOREX, ZZZZZZ to OTHER. -/
theorem claim_C3_fixture_classification :
    classify_symbol "US30" = "INDEX" ∧
    classify_symbol "EURUSD" = "FOREX" ∧
    classify_symbol "XAUUSD" = "FOREX" ∧
    classify_symbol "BTCUSD" = "FOREX" ∧
    classify_symbol "ZZZZZZ" = "OTHER" := by
  decide

/-- C4: the claim is false on the code: a row whose `open` is +infinity is
not a finite positive number, yet the sanitizer accepts it — the code checks
`pd.isna(value) or value <= 0` and never checks finiteness, and
`float(inf)` succeeds. -/
theorem claim_C4_counterexample :
    sanitizeRow "EURUSD" "H1" infOpenRow
      = .accepted ⟨"EURUSD", "H1", 100, .inf, .num 2, .num 1, .num 2,
                   0, 0, 0, 0⟩ := by
  decide

theorem sameKey_self (r : PriceRecord) : sameKey r r = true := by
  simp [sameKey]

/-- Running `executemany` over a batch tail whose front records are clean
(no backend error, keys fresh for the table and pairwise distinct) and whose
next record raises: the front is applied, then the error propagates. -/
theorem executeMany_clean_front (fails : PriceRecord → Bool)
    (pre : List PriceRecord) (rb : PriceRecord) (post : List PriceRecord)
    (hb : fails rb = true) :
    ∀ tbl, (∀ r ∈ pre, fails r = false) →
      (∀ r ∈ pre, ∀ x ∈ tbl, sameKey r x = false) →
      pre.Pairwise (fun a b => sameKey b a = false) →
      executeMany fails tbl (pre ++ rb :: post)
        = (tbl ++ pre, pre.length, false) := by
  induction pre with
  | nil =>
    intro tbl _ _ _
    simp [executeMany, insertOrIgnore, hb]
  | cons p pre ih =>
    intro tbl hf hfresh hpw
    have hp : fails p = false := hf p (by simp)
    have hany : tbl.any (sameKey p) = false := by
      simp only [List.any_eq_false, Bool.not_eq_true]
      exact fun x hx => hfresh p (by simp) x hx
    have hpw' := List.pairwise_cons.mp hpw
    have step : insertOrIgnore fails tbl p = some (tbl ++ [p], 1) := by
      simp [insertOrIgnore, hp, hany]
    have ihres := ih (tbl ++ [p]) (fun r hr => hf r (by simp [hr]))
      (fun r hr x hx => by
        rcases List.mem_append.mp hx with h | h
        · exact hfresh r (by simp [hr]) x h
        · have hx0 : x = p := by simpa using h
          subst hx0
          exact hpw'.1 r hr)
      hpw'.2
    simp only [List.cons_append, executeMany, step, List.append_eq, ihres]
    simp [List.append_assoc, Nat.add_comm]

/-- The fallback loop over a batch tail whose front records are already in
the table (they count 0) and whose next record raises: nothing changes and
nothing is counted (the loop `break`s). -/
theorem fallbackInserts_dup_front (fails : PriceRecord → Bool)
    (pre : List PriceRecord) (rb : PriceRecord) (post : List PriceRecord)
    (hb : fails rb = true) :
    ∀ tbl, (∀ r ∈ pre, fails r = false) →
      (∀ r ∈ pre, tbl.any (sameKey r) = true) →
      fallbackInserts fails tbl (pre ++ rb :: post) = (tbl, 0) := by
  induction pre with
  | nil =>
    intro tbl _ _
    simp [fallbackInserts, insertOrIgnore, hb]
  | cons p pre ih =>
    intro tbl hf hdup
    have step : insertOrIgnore fails tbl p = some (tbl, 0) := by
      simp [insertOrIgnore, hf p (by simp), hdup p (by simp)]
    have ihres := ih tbl (fun r hr => hf r (by simp [hr]))
      (fun r hr => hdup r (by simp [hr]))
    simp only [List.cons_append, fallbackInserts, step, List.append_eq, ihres]

/-- C2 (amended): when the full-batch insert fails at a record the backend
deterministically rejects, `save_price_data` does fall back to single-record
inserts but `break`s at the first individual failure (line 554) instead of
continuing: the records before the failing one (and the first, test-inserted
record) stay applied to the store, every record from the failing one onward
is lost, and the call returns 0 — the re-attempted front records are
duplicates of what the aborted batch already applied, so no fallback insert
counts, and the `rows_inserted > 0` guard (line 556) discards even the rows
that did succeed. -/
theorem claim_C2_fallback_stops_at_first_failure
    (fails : PriceRecord → Bool) (symbol timeframe : String)
    (df : List RawRow) (db : DB)
    (r0 rb : PriceRecord) (pre post : List PriceRecord) (bad : Nat)
    (hprep : prepareRecords symbol timeframe df
      = (r0 :: (pre ++ rb :: post), bad))
    (h0 : fails r0 = false)
    (hpre : ∀ r ∈ pre, fails r = false)
    (hb : fails rb = true)
    (hpw : (r0 :: pre).Pairwise (fun a b => sameKey b a = false))
    (hfresh : ∀ r ∈ r0 :: pre, ∀ x ∈ db.price_data, sameKey r x = false) :
    save_price_data fails symbol timeframe df db
      = (⟨db.price_data ++ r0 :: pre, db.download_stats⟩, 0) := by
  have hpw' := List.pairwise_cons.mp hpw
  have hany0 : db.price_data.any (sameKey r0) = false := by
    simp only [List.any_eq_false, Bool.not_eq_true]
    exact fun x hx => hfresh r0 (by simp) x hx
  have step0 : insertOrIgnore fails db.price_data r0
      = some (db.price_data ++ [r0], 1) := by
    simp [insertOrIgnore, h0, hany0]
  have hem := executeMany_clean_front fails pre rb post hb
    (db.price_data ++ [r0]) hpre
    (fun r hr x hx => by
      rcases List.mem_append.mp hx with h | h
      · exact hfresh r (by simp [hr]) x h
      · have hx0 : x = r0 := by simpa using h
        subst hx0
        exact hpw'.1 r hr)
    hpw'.2
  have hfb := fallbackInserts_dup_front fails pre rb post hb
    (db.price_data ++ [r0] ++ pre) hpre
    (fun r hr => List.any_eq_true.mpr ⟨r, by simp [hr], sameKey_self r⟩)
  simp only [save_price_data, hprep, step0, List.append_eq, hem, hfb]
  simp [List.append_assoc]

/-- C2: the claim is false on the code: in a four-record batch whose third
record hits a backend error, the batch insert fails, the fallback `break`s
at the failing record, the individually-valid fourth record is never
attempted (lost), and the call returns 0 even though two records were
persisted. -/
theorem claim_C2_counterexample :
    (save_price_data failsAt42 "S" "H1" batchWithBadThird ⟨[], []⟩).2 = 0 ∧
    (save_price_data failsAt42 "S" "H1" batchWithBadThird ⟨[], []⟩).1.price_data
      = [validRec "S" "H1" 1, validRec "S" "H1" 2] := by
  decide

theorem checkField_eq_none_iff (v : Option RawVal) :
    checkField v = none ↔ badOHLCCell v = true := by
  cases v with
  | none => simp [checkField, badOHLCCell]
  | some x =>
    cases x with
    | num q =>
      by_cases hq : q ≤ 0 <;>
        simp [checkField, badOHLCCell, RawVal.isna, RawVal.leZero, hq]
    | _ => simp [checkField, badOHLCCell, RawVal.isna, RawVal.leZero]

theorem checkField_some_bad (v : Option RawVal) (x : RawVal)
    (h : checkField v = some x) : badOHLCCell v = false := by
  cases hb : badOHLCCell v with
  | false => rfl
  | true =>
    rw [(checkField_eq_none_iff v).mpr hb] at h
    cases h

theorem intFieldDefault_eq_none_iff (v : Option RawVal) :
    intFieldDefault v = none ↔ intOverflowCell v = true := by
  cases v with
  | none => simp [intFieldDefault, intOverflowCell]
  | some x =>
    cases x <;> simp [intFieldDefault, intOverflowCell, RawVal.toIntTrunc]

theorem intFieldDefault_some_ok (v : Option RawVal) (n : Int)
    (h : intFieldDefault v = some n) : intOverflowCell v = false := by
  cases hb : intOverflowCell v with
  | false => rfl
  | true =>
    rw [(intFieldDefault_eq_none_iff v).mpr hb] at h
    cases h

/-- C4 (amended): the sanitizer rejects a row exactly when the timestamp is
absent, NaN, or infinite, or when some OHLC field (checked in order after
the timestamp) is absent, NaN, or non-positive, or when a
tick_volume/spread/real_volume cell is infinite (its `int()` conversion
raises past the inner handler); finiteness of OHLC values is NOT checked, so
a +infinity OHLC value is accepted.  The timestamp check comes first, and a
rejection is an ordinary returned outcome (the model is a total function):
it never propagates past the row. -/
theorem claim_C4_rejection_characterisation :
    (∀ symbol timeframe row,
      (sanitizeRow symbol timeframe row).isRejected = rejectCond row) ∧
    (∀ symbol timeframe row,
      row.time = none ∨ row.time = some RawVal.nan →
        sanitizeRow symbol timeframe row
          = .rejected .missingTimestamp) := by
  constructor
  · intro symbol timeframe row
    obtain ⟨t, o, hi, lo, cl, tv, sp, rv⟩ := row
    match t with
    | none =>
      simp [sanitizeRow, rejectCond, badTimeCell, RowOutcome.isRejected]
    | some RawVal.nan =>
      simp [sanitizeRow, rejectCond, badTimeCell, RowOutcome.isRejected,
            RawVal.isna]
    | some RawVal.inf =>
      simp [sanitizeRow, rejectCond, badTimeCell, RowOutcome.isRejected,
            RawVal.isna, RawVal.toIntTrunc]
    | some RawVal.negInf =>
      simp [sanitizeRow, rejectCond, badTimeCell, RowOutcome.isRejected,
            RawVal.isna, RawVal.toIntTrunc]
    | some (RawVal.num q) =>
      cases ho : checkField o with
      | none =>
        have hbo := (checkField_eq_none_iff o).mp ho
        simp [sanitizeRow, rejectCond, badTimeCell, RowOutcome.isRejected,
              RawVal.isna, RawVal.toIntTrunc, ho, hbo]
      | some o' =>
        have hbo := checkField_some_bad o o' ho
        cases hh : checkField hi with
        | none =>
          have hbh := (checkField_eq_none_iff hi).mp hh
          simp [sanitizeRow, rejectCond, badTimeCell, RowOutcome.isRejected,
                RawVal.isna, RawVal.toIntTrunc, ho, hbo, hh, hbh]
        | some h' =>
          have hbh := checkField_some_bad hi h' hh
          cases hl : checkField lo with
          | none =>
            have hbl := (checkField_eq_none_iff lo).mp hl
            simp [sanitizeRow, rejectCond, badTimeCell,
                  RowOutcome.isRejected, RawVal.isna, RawVal.toIntTrunc,
                  ho, hbo, hh, hbh, hl, hbl]
          | some l' =>
            have hbl := checkField_some_bad lo l' hl
            cases hc : checkField cl with
            | none =>
              have hbc := (checkField_eq_none_iff cl).mp hc
              simp [sanitizeRow, rejectCond, badTimeCell,
                    RowOutcome.isRejected, RawVal.isna, RawVal.toIntTrunc,
                    ho, hbo, hh, hbh, hl, hbl, hc, hbc]
            | some c' =>
              have hbc := checkField_some_bad cl c' hc
              cases htv : intFieldDefault tv with
              | none =>
                have hvtv := (intFieldDefault_eq_none_iff tv).mp htv
                simp [sanitizeRow, rejectCond, badTimeCell,
                      RowOutcome.isRejected, RawVal.isna, RawVal.toIntTrunc,
                      ho, hbo, hh, hbh, hl, hbl, hc, hbc, htv, hvtv]
              | some tv' =>
                have hvtv := intFieldDefault_some_ok tv tv' htv
                cases hsp : intFieldDefault sp with
                | none =>
                  have hvsp := (intFieldDefault_eq_none_iff sp).mp hsp
                  simp [sanitizeRow, rejectCond, badTimeCell,
                        RowOutcome.isRejected, RawVal.isna,
                        RawVal.toIntTrunc, ho, hbo, hh, hbh, hl, hbl, hc,
                        hbc, htv, hvtv, hsp, hvsp]
                | some sp' =>
                  have hvsp := intFieldDefault_some_ok sp sp' hsp
                  cases hrv : intFieldDefault rv with
                  | none =>
                    have hvrv := (intFieldDefault_eq_none_iff rv).mp hrv
                    simp [sanitizeRow, rejectCond, badTimeCell,
                          RowOutcome.isRejected, RawVal.isna,
                          RawVal.toIntTrunc, ho, hbo, hh, hbh, hl, hbl,
                          hc, hbc, htv, hvtv, hsp, hvsp, hrv, hvrv]
                  | some rv' =>
                    have hvrv := intFieldDefault_some_ok rv rv' hrv
                    simp [sanitizeRow, rejectCond, badTimeCell,
                          RowOutcome.isRejected, RawVal.isna,
                          RawVal.toIntTrunc, ho, hbo, hh, hbh, hl, hbl,
                          hc, hbc, htv, hvtv, hsp, hvsp, hrv, hvrv]
  · intro symbol timeframe row h
    rcases h with h | h <;> simp [sanitizeRow, h, RawVal.isna]

/-- Witness for the amended C4 theorem: a row missing its timestamp (and
with an invalid close) is rejected with `MissingTimestamp`, matching the
characterisation, and the timestamp check wins over the OHLC check. -/
theorem claim_C4_witness :
    (sanitizeRow "EURUSD" "H1" noTimeRow).isRejected = rejectCond noTimeRow ∧
    sanitizeRow "EURUSD" "H1" noTimeRow
      = .rejected .missingTimestamp :=
  ⟨claim_C4_rejection_characterisation.1 "EURUSD" "H1" noTimeRow,
   claim_C4_rejection_characterisation.2 "EURUSD" "H1" noTimeRow
     (Or.inl rfl)⟩

/-- C5 (amended): `save_price_data` appends at most one `download_stats`
row per call — exactly one when the call reports a positive insert count and
none otherwise — and every appended row carries `success = True` (the code
never writes a failed row; failed or empty fetch attempts append
nothing). -/
theorem claim_C5_stats_only_on_success
    (fails : PriceRecord → Bool) (symbol timeframe : String)
    (df : List RawRow) (db : DB) :
    (save_price_data fails symbol timeframe df db).1.download_stats
      = db.download_stats ++
        (if 0 < (save_price_data fails symbol timeframe df db).2 then
          [⟨symbol, timeframe, df.length, (df.head?).bind (fun r => r.time),
            (df.getLast?).bind (fun r => r.time), true⟩]
         else ([] : List StatRow)) := by
  have hdf : (prepareRecords symbol timeframe df).1 ≠ [] → 0 < df.length := by
    intro h
    cases df with
    | nil => simp [prepareRecords] at h
    | cons a l => simp
  simp only [save_price_data]
  cases hdata : (prepareRecords symbol timeframe df).1 with
  | nil => simp
  | cons r0 rest =>
    have hlen : 0 < df.length := hdf (by rw [hdata]; simp)
    cases hins : insertOrIgnore fails db.price_data r0 with
    | none => simp [hins]
    | some p =>
      cases hok : (executeMany fails p.1 rest).2.2 with
      | true => simp [hins, hok, appendStat, hlen]
      | false =>
        by_cases hfbp :
            0 < (fallbackInserts fails (executeMany fails p.1 rest).1 rest).2
        · simp [hins, hok, appendStat, hlen, hfbp]
        · simp [hins, hok, hfbp]

/-- C5: the claim is false on the code: in the end-to-end scenario (three
valid H1 bars, empty M1 response) the store ends with exactly ONE
`download_stats` row — the successful H1 one — not one row per timeframe:
the failed M1 attempt appends nothing, because the stats insert (lines
562-576) runs only when `rows_inserted > 0` and always writes
`success = True`. -/
theorem claim_C5_counterexample :
    (download_symbol_data endToEndSource noFailure "EURUSD" ["M1", "H1"]
        ⟨[], []⟩).1.download_stats
      = [⟨"EURUSD", "H1", 3, some (.num 10), some (.num 30), true⟩] ∧
    (download_symbol_data endToEndSource noFailure "EURUSD" ["M1", "H1"]
        ⟨[], []⟩).2.1.timeframes
      = [("M1", ⟨0, 0, false⟩), ("H1", ⟨3, 3, true⟩)] := by
  decide

/-- Witness for the amended C5 theorem at a concrete successful write. -/
theorem claim_C5_witness :
    (save_price_data noFailure "EURUSD" "H1" twoBars
        ⟨[], []⟩).1.download_stats
      = ([] : List StatRow) ++
        (if 0 < (save_price_data noFailure "EURUSD" "H1" twoBars ⟨[], []⟩).2
         then [⟨"EURUSD", "H1", 2, some (.num 100), some (.num 200), true⟩]
         else ([] : List StatRow)) :=
  claim_C5_stats_only_on_success noFailure "EURUSD" "H1" twoBars ⟨[], []⟩

theorem download_symbol_data_success (src : Source)
    (fails : PriceRecord → Bool) (symbol : String)
    (timeframes : List String) (db : DB) :
    (download_symbol_data src fails symbol timeframes db).2.1.success
      = src.selectable symbol := by
  unfold download_symbol_data
  cases h : src.selectable symbol <;> simp [h]

theorem downloadLoop_trace_fst (src : Source) (fails : PriceRecord → Bool)
    (symbol : String) :
    ∀ (tfs : List String) (db : DB),
      ∀ p ∈ (downloadLoop src fails symbol db tfs).2.2.2, p.1 = symbol := by
  intro tfs
  induction tfs with
  | nil => intro db p hp; simp [downloadLoop] at hp
  | cons tf rest ih =>
    intro db p hp
    by_cases h : timeframe_keys.contains tf = true
    · simp only [downloadLoop, h, if_true] at hp
      rcases List.mem_cons.mp hp with h1 | h1
      · rw [h1]
      · exact ih _ p h1
    · simp only [downloadLoop, h, if_false] at hp
      exact ih _ p hp

theorem download_symbol_data_trace (src : Source)
    (fails : PriceRecord → Bool) (symbol : String)
    (timeframes : List String) (db : DB) :
    ∀ p ∈ (download_symbol_data src fails symbol timeframes db).2.2,
      p.1 = symbol ∧ src.selectable symbol = true := by
  intro p hp
  unfold download_symbol_data at hp
  by_cases h : src.selectable symbol = true
  · simp only [h, if_true] at hp
    exact ⟨downloadLoop_trace_fst src fails symbol timeframes db p hp, h⟩
  · simp [h] at hp

theorem run_symbols_stats (src : Source) (fails : PriceRecord → Bool)
    (timeframes : List String) :
    ∀ (order : List String) (db : DB) (st : Stats),
      (run_symbols src fails timeframes order db st).2.1.symbols_failed
        = st.symbols_failed
          ++ order.filter (fun s => !src.selectable s) ∧
      (run_symbols src fails timeframes order db st).2.1.symbols_completed
        = st.symbols_completed
          ++ order.filter (fun s => src.selectable s) := by
  intro order
  induction order with
  | nil => intro db st; simp [run_symbols]
  | cons symbol rest ih =>
    intro db st
    have ihf : ∀ db st,
        (run_symbols src fails timeframes rest db st).2.1.symbols_failed
          = st.symbols_failed ++ rest.filter (fun s => !src.selectable s) :=
      fun db st => (ih db st).1
    have ihc : ∀ db st,
        (run_symbols src fails timeframes rest db st).2.1.symbols_completed
          = st.symbols_completed
            ++ rest.filter (fun s => src.selectable s) :=
      fun db st => (ih db st).2
    have hsucc := download_symbol_data_success src fails symbol timeframes db
    by_cases hsel : src.selectable symbol = true
    · constructor <;>
        simp [run_symbols, hsucc, hsel, List.filter_cons, ihf, ihc,
              List.append_assoc]
    · have hsel' : src.selectable symbol = false := by
        cases hx : src.selectable symbol
        · rfl
        · exact absurd hx hsel
      constructor <;>
        simp [run_symbols, hsucc, hsel', List.filter_cons, ihf, ihc,
              List.append_assoc]

theorem run_symbols_trace (src : Source) (fails : PriceRecord → Bool)
    (timeframes : List String) :
    ∀ (order : List String) (db : DB) (st : Stats),
      ∀ p ∈ (run_symbols src fails timeframes order db st).2.2,
        src.selectable p.1 = true := by
  intro order
  induction order with
  | nil => intro db st p hp; simp [run_symbols] at hp
  | cons symbol rest ih =>
    intro db st p hp
    simp only [run_symbols] at hp
    rcases List.mem_append.mp hp with h | h
    · obtain ⟨hfst, hsel⟩ :=
        download_symbol_data_trace src fails symbol timeframes db p h
      rw [hfst]
      exact hsel
    · exact ih _ _ p h

/-- C6: running over any completion order of the symbols A, B, C where only
B is not selectable: B is the one reported failed, A and C are both
completed, and no fetch is ever issued for B — the failure is contained to
B, whatever the order in which the per-symbol tasks finish. -/
theorem claim_C6_unselectable_symbol_contained
    (fetch : String → String → List RawRow) (fails : PriceRecord → Bool)
    (timeframes : List String) (order : List String)
    (hperm : order.Perm ["A", "B", "C"]) :
    (build_run ⟨fun s => s != "B", fetch⟩ fails order
        timeframes).2.1.symbols_failed = ["B"] ∧
    ((build_run ⟨fun s => s != "B", fetch⟩ fails order
        timeframes).2.1.symbols_completed).Perm ["A", "C"] ∧
    ∀ p ∈ (build_run ⟨fun s => s != "B", fetch⟩ fails order timeframes).2.2,
      p.1 ≠ "B" := by
  obtain ⟨hf, hc⟩ := run_symbols_stats ⟨fun s => s != "B", fetch⟩ fails
    timeframes order ⟨[], []⟩ initStats
  refine ⟨?_, ?_, ?_⟩
  · rw [build_run, hf]
    have hcomp : List.filter (fun s => !(s != "B")) ["A", "B", "C"]
        = ["B"] := by decide
    have hp := hperm.filter (fun s => !(s != "B"))
    rw [hcomp] at hp
    show ([] : List String) ++ order.filter (fun s => !(s != "B")) = ["B"]
    rw [List.nil_append, List.perm_singleton.mp hp]
  · rw [build_run, hc]
    have hcomp : List.filter (fun s => s != "B") ["A", "B", "C"]
        = ["A", "C"] := by decide
    have hp := hperm.filter (fun s => s != "B")
    rw [hcomp] at hp
    show (([] : List String)
        ++ order.filter (fun s => s != "B")).Perm ["A", "C"]
    simpa using hp
  · intro p hp
    have := run_symbols_trace ⟨fun s => s != "B", fetch⟩ fails timeframes
      order ⟨[], []⟩ initStats p hp
    simpa [bne_iff_ne] using this

/-- Witness for the C6 theorem at the identity completion order. -/
theorem claim_C6_witness :
    (build_run ⟨fun s => s != "B", fun _ _ => []⟩ noFailure ["A", "B", "C"]
        []).2.1.symbols_failed = ["B"] ∧
    ((build_run ⟨fun s => s != "B", fun _ _ => []⟩ noFailure ["A", "B", "C"]
        []).2.1.symbols_completed).Perm ["A", "C"] ∧
    ∀ p ∈ (build_run ⟨fun s => s != "B", fun _ _ => []⟩ noFailure
        ["A", "B", "C"] []).2.2, p.1 ≠ "B" :=
  claim_C6_unselectable_symbol_contained (fun _ _ => []) noFailure []
    ["A", "B", "C"] (List.Perm.refl _)

theorem strUpper_length (s : String) : (strUpper s).length = s.length := by
  rcases s with ⟨data⟩
  simp [strUpper, String.length, String.toList]

/-- C7: the classifier's contract.  (1) It is case-insensitive: two tickers
with the same upper-casing classify alike (purity and determinism are
inherent: it is a function).  (2) The INDEX branch has strict priority: any
ticker matching an index pattern — even one that also satisfies the forex
length-6 heuristic — classifies as INDEX.  (3) An unmatched ticker falls
through to OTHER instead of failing.  (4) The function is total into the
five-tag set. -/
theorem claim_C7_classifier_contract :
    (∀ s₁ s₂ : String, strUpper s₁ = strUpper s₂ →
      classify_symbol s₁ = classify_symbol s₂) ∧
    (∀ s : String, matchesAny (strUpper s) index_patterns = true →
      classify_symbol s = "INDEX") ∧
    (∀ s : String, matchesAny (strUpper s) index_patterns = false →
      (s.length == 6 && matchesAny (strUpper s) forex_patterns) = false →
      matchesAny (strUpper s) commodity_patterns = false →
      matchesAny (strUpper s) crypto_patterns = false →
      classify_symbol s = "OTHER") ∧
    (∀ s : String, classify_symbol s = "INDEX" ∨ classify_symbol s = "FOREX"
      ∨ classify_symbol s = "COMMODITY" ∨ classify_symbol s = "CRYPTO"
      ∨ classify_symbol s = "OTHER") := by
  refine ⟨?_, ?_, ?_, ?_⟩
  · intro s₁ s₂ h
    have hlen : s₁.length = s₂.length := by
      rw [← strUpper_length s₁, ← strUpper_length s₂, h]
    simp only [classify_symbol, h, hlen]
  · intro s h
    simp [classify_symbol, h]
  · intro s h1 h2 h3 h4
    simp [classify_symbol, h1, h2, h3, h4]
  · intro s
    unfold classify_symbol
    dsimp only
    split_ifs <;> simp

/-- Witness for the C7 theorem: case-insensitivity on eurusd/EURUSD, INDEX
priority on EURVIX (which matches both the VIX index pattern and the forex
length-6 heuristic), and OTHER fallthrough on QQQ. -/
theorem claim_C7_witness :
    classify_symbol "eurusd" = classify_symbol "EURUSD" ∧
    classify_symbol "EURVIX" = "INDEX" ∧
    classify_symbol "QQQ" = "OTHER" :=
  ⟨claim_C7_classifier_contract.1 "eurusd" "EURUSD" (by decide),
   claim_C7_classifier_contract.2.1 "EURVIX" (by decide),
   claim_C7_classifier_contract.2.2.1 "QQQ" (by decide) (by decide)
     (by decide) (by decide)⟩

/-- C8: on every run scenario of `build_database` — normal completion, early
`return False`, a caught exception, and a `KeyboardInterrupt` that
propagates — the `finally` clause makes the run's action trace end with the
`cleanup` actions: the store connection is closed whenever one was opened
and MT5 is shut down whenever it was connected, before the run
terminates. -/
theorem claim_C8_cleanup_always_runs :
    (∀ sc : RunScenario, ∃ t : List Action,
      (build_database sc).2
        = t ++ cleanupTrace (connStateAt sc).1 (connStateAt sc).2) ∧
    (∀ sc : RunScenario, (connStateAt sc).1 = true →
      Action.closeConnection ∈ (build_database sc).2) ∧
    (∀ sc : RunScenario, (connStateAt sc).2 = true →
      Action.mt5Shutdown ∈ (build_database sc).2) := by
  refine ⟨?_, ?_, ?_⟩
  · intro sc
    exact ⟨(tryBody sc).1, rfl⟩
  · intro sc h
    cases sc <;> simp_all [build_database, tryBody, connStateAt, cleanupTrace]
  · intro sc h
    cases sc <;> simp_all [build_database, tryBody, connStateAt, cleanupTrace]

/-- Witness for the C8 theorem at the interrupted scenario: both cleanup
actions occur in the trace even though the interrupt propagates. -/
theorem claim_C8_witness :
    Action.closeConnection ∈ (build_database .interrupted).2 ∧
    Action.mt5Shutdown ∈ (build_database .interrupted).2 :=
  ⟨claim_C8_cleanup_always_runs.2.1 .interrupted rfl,
   claim_C8_cleanup_always_runs.2.2 .interrupted rfl⟩

theorem sanitizeRow_accepted_volume (symbol timeframe : String)
    (row : RawRow) (r : PriceRecord)
    (h : sanitizeRow symbol timeframe row = .accepted r) :
    r.volume = r.tick_volume ∧
    intFieldDefault row.tick_volume = some r.volume := by
  unfold sanitizeRow at h
  repeat' split at h
  all_goals cases h
  all_goals simp_all

theorem prepareRecords_mem (symbol timeframe : String) :
    ∀ (df : List RawRow) (r : PriceRecord),
      r ∈ (prepareRecords symbol timeframe df).1 →
      ∃ row ∈ df, sanitizeRow symbol timeframe row = .accepted r := by
  intro df
  induction df with
  | nil => intro r hr; simp [prepareRecords] at hr
  | cons row rest ih =>
    intro r hr
    simp only [prepareRecords] at hr
    cases hs : sanitizeRow symbol timeframe row with
    | accepted r' =>
      simp only [hs] at hr
      rcases List.mem_cons.mp hr with h1 | h1
      · exact ⟨row, by simp, by rw [hs, h1]⟩
      · obtain ⟨row', hm, hacc⟩ := ih r h1
        exact ⟨row', by simp [hm], hacc⟩
    | rejected w =>
      simp only [hs] at hr
      obtain ⟨row', hm, hacc⟩ := ih r hr
      exact ⟨row', by simp [hm], hacc⟩

theorem insertOrIgnore_mem (fails : PriceRecord → Bool)
    (tbl : List PriceRecord) (r : PriceRecord)
    (out : List PriceRecord × Nat)
    (h : insertOrIgnore fails tbl r = some out) :
    ∀ x ∈ out.1, x ∈ tbl ∨ x = r := by
  unfold insertOrIgnore at h
  split at h
  · simp at h
  · split at h
    · obtain rfl := Option.some.inj h
      intro x hx
      exact Or.inl hx
    · obtain rfl := Option.some.inj h
      intro x hx
      rcases List.mem_append.mp hx with h1 | h1
      · exact Or.inl h1
      · exact Or.inr (by simpa using h1)

theorem executeMany_mem (fails : PriceRecord → Bool) :
    ∀ (rs : List PriceRecord) (tbl : List PriceRecord),
      ∀ x ∈ (executeMany fails tbl rs).1, x ∈ tbl ∨ x ∈ rs := by
  intro rs
  induction rs with
  | nil =>
    intro tbl x hx
    simp only [executeMany] at hx
    exact Or.inl hx
  | cons r rest ih =>
    intro tbl x hx
    simp only [executeMany] at hx
    cases hins : insertOrIgnore fails tbl r with
    | none =>
      simp only [hins] at hx
      exact Or.inl hx
    | some p =>
      simp only [hins] at hx
      rcases ih p.1 x hx with h | h
      · rcases insertOrIgnore_mem fails tbl r p hins x h with h1 | h1
        · exact Or.inl h1
        · exact Or.inr (by simp [h1])
      · exact Or.inr (by simp [h])

theorem fallbackInserts_mem (fails : PriceRecord → Bool) :
    ∀ (rs : List PriceRecord) (tbl : List PriceRecord),
      ∀ x ∈ (fallbackInserts fails tbl rs).1, x ∈ tbl ∨ x ∈ rs := by
  intro rs
  induction rs with
  | nil =>
    intro tbl x hx
    simp only [fallbackInserts] at hx
    exact Or.inl hx
  | cons r rest ih =>
    intro tbl x hx
    simp only [fallbackInserts] at hx
    cases hins : insertOrIgnore fails tbl r with
    | none =>
      simp only [hins] at hx
      exact Or.inl hx
    | some p =>
      simp only [hins] at hx
      rcases ih p.1 x hx with h | h
      · rcases insertOrIgnore_mem fails tbl r p hins x h with h1 | h1
        · exact Or.inl h1
        · exact Or.inr (by simp [h1])
      · exact Or.inr (by simp [h])

theorem save_price_data_price_mem (fails : PriceRecord → Bool)
    (symbol timeframe : String) (df : List RawRow) (db : DB) :
    ∀ x ∈ (save_price_data fails symbol timeframe df db).1.price_data,
      x ∈ db.price_data ∨
      ∃ row ∈ df, sanitizeRow symbol timeframe row = .accepted x := by
  intro x hx
  simp only [save_price_data] at hx
  cases hdata : (prepareRecords symbol timeframe df).1 with
  | nil =>
    simp only [hdata] at hx
    exact Or.inl hx
  | cons r0 rest =>
    have hmem : ∀ y, y ∈ r0 :: rest →
        ∃ row ∈ df, sanitizeRow symbol timeframe row = .accepted y := by
      intro y hy
      apply prepareRecords_mem symbol timeframe df
      rw [hdata]
      exact hy
    simp only [hdata] at hx
    cases hins : insertOrIgnore fails db.price_data r0 with
    | none =>
      simp only [hins] at hx
      exact Or.inl hx
    | some p =>
      have hp1 : ∀ y ∈ p.1, y ∈ db.price_data ∨ y ∈ r0 :: rest := by
        intro y hy
        rcases insertOrIgnore_mem fails db.price_data r0 p hins y hy with
          h1 | h1
        · exact Or.inl h1
        · exact Or.inr (by simp [h1])
      have hem : ∀ y ∈ (executeMany fails p.1 rest).1,
          y ∈ db.price_data ∨ y ∈ r0 :: rest := by
        intro y hy
        rcases executeMany_mem fails rest p.1 y hy with h1 | h1
        · exact hp1 y h1
        · exact Or.inr (by simp [h1])
      have hfb : ∀ y ∈ (fallbackInserts fails
            (executeMany fails p.1 rest).1 rest).1,
          y ∈ db.price_data ∨ y ∈ r0 :: rest := by
        intro y hy
        rcases fallbackInserts_mem fails rest
            (executeMany fails p.1 rest).1 y hy with h1 | h1
        · exact hem y h1
        · exact Or.inr (by simp [h1])
      simp only [hins] at hx
      cases hok : (executeMany fails p.1 rest).2.2 with
      | true =>
        simp only [hok, if_true] at hx
        rcases hem x hx with h1 | h1
        · exact Or.inl h1
        · exact Or.inr (hmem x h1)
      | false =>
        simp only [hok] at hx
        by_cases hfbp :
            0 < (fallbackInserts fails (executeMany fails p.1 rest).1 rest).2
        · simp only [hfbp, if_true] at hx
          rcases hfb x hx with h1 | h1
          · exact Or.inl h1
          · exact Or.inr (hmem x h1)
        · simp only [hfbp, if_false] at hx
          rcases hfb x hx with h1 | h1
          · exact Or.inl h1
          · exact Or.inr (hmem x h1)

/-- C9: the stored `volume` always equals the stored `tick_volume`: every
accepted record carries `volume = tick_volume`, both computed by the
tick_volume defaulting rule (the fetched value when present and parseable,
else 0), and consequently every row `save_price_data` adds to the store
satisfies `volume = tick_volume`. -/
theorem claim_C9_volume_mirrors_tick_volume
    (fails : PriceRecord → Bool) (symbol timeframe : String)
    (df : List RawRow) (db : DB) :
    (∀ (row : RawRow) (r : PriceRecord),
      sanitizeRow symbol timeframe row = .accepted r →
      r.volume = r.tick_volume ∧
      intFieldDefault row.tick_volume = some r.volume) ∧
    (∀ x ∈ (save_price_data fails symbol timeframe df db).1.price_data,
      x ∈ db.price_data ∨ x.volume = x.tick_volume) := by
  constructor
  · intro row r h
    exact sanitizeRow_accepted_volume symbol timeframe row r h
  · intro x hx
    rcases save_price_data_price_mem fails symbol timeframe df db x hx with
      h | ⟨row, _, hacc⟩
    · exact Or.inl h
    · exact Or.inr
        (sanitizeRow_accepted_volume symbol timeframe row x hacc).1

/-- Witness for the C9 theorem: the concrete valid row with tick volume 5
sanitizes to a record whose `volume` and `tick_volume` are both 5. -/
theorem claim_C9_witness :
    (validRec "EURUSD" "H1" 100).volume
      = (validRec "EURUSD" "H1" 100).tick_volume ∧
    intFieldDefault (validRow 100).tick_volume
      = some (validRec "EURUSD" "H1" 100).volume :=
  (claim_C9_volume_mirrors_tick_volume noFailure "EURUSD" "H1" twoBars
      ⟨[], []⟩).1 (validRow 100) (validRec "EURUSD" "H1" 100) (by decide)

theorem downloadLoop_filter (src : Source) (fails : PriceRecord → Bool)
    (symbol : String) :
    ∀ (tfs : List String) (db : DB),
      downloadLoop src fails symbol db tfs
        = downloadLoop src fails symbol db
            (tfs.filter (fun tf => timeframe_keys.contains tf)) := by
  intro tfs
  induction tfs with
  | nil => intro db; rfl
  | cons tf rest ih =>
    intro db
    by_cases h : timeframe_keys.contains tf = true
    · simp only [List.filter_cons, h, if_true, downloadLoop, ih]
    · simp only [List.filter_cons, h, if_false, downloadLoop, ih]
      simp [h, ih]

theorem downloadLoop_keys (src : Source) (fails : PriceRecord → Bool)
    (symbol : String) :
    ∀ (tfs : List String) (db : DB),
      (∀ e ∈ (downloadLoop src fails symbol db tfs).2.1,
        timeframe_keys.contains e.1 = true) ∧
      (∀ p ∈ (downloadLoop src fails symbol db tfs).2.2.2,
        timeframe_keys.contains p.2 = true) := by
  intro tfs
  induction tfs with
  | nil =>
    intro db
    constructor <;> (intro e he; simp [downloadLoop] at he)
  | cons tf rest ih =>
    intro db
    by_cases h : timeframe_keys.contains tf = true
    · constructor
      · intro e he
        simp only [downloadLoop, h, if_true] at he
        rcases List.mem_cons.mp he with h1 | h1
        · rw [h1]
          exact h
        · exact (ih _).1 e h1
      · intro p hp
        simp only [downloadLoop, h, if_true] at hp
        rcases List.mem_cons.mp hp with h1 | h1
        · rw [h1]
          exact h
        · exact (ih _).2 p h1
    · constructor
      · intro e he
        simp only [downloadLoop, h, if_false] at he
        exact (ih _).1 e he
      · intro p hp
        simp only [downloadLoop, h, if_false] at hp
        exact (ih _).2 p hp

/-- C10: a timeframe tag outside the nine supported keys is silently
skipped: the whole of `download_symbol_data` is unchanged if unsupported
tags are removed from the requested list (so no result entry, no saved
bars, no success-flag change), every recorded per-timeframe entry carries a
supported key, and every fetch actually issued is for a supported key. -/
theorem claim_C10_unsupported_timeframe_skipped (src : Source)
    (fails : PriceRecord → Bool) (symbol : String)
    (timeframes : List String) (db : DB) :
    download_symbol_data src fails symbol timeframes db
      = download_symbol_data src fails symbol
          (timeframes.filter (fun tf => timeframe_keys.contains tf)) db ∧
    (∀ e ∈ (download_symbol_data src fails symbol
        timeframes db).2.1.timeframes,
      timeframe_keys.contains e.1 = true) ∧
    (∀ p ∈ (download_symbol_data src fails symbol timeframes db).2.2,
      timeframe_keys.contains p.2 = true) := by
  refine ⟨?_, ?_, ?_⟩
  · unfold download_symbol_data
    by_cases h : src.selectable symbol = true
    · rw [if_pos h, if_pos h,
         downloadLoop_filter src fails symbol timeframes db]
    · rw [if_neg h, if_neg h]
  · intro e he
    unfold download_symbol_data at he
    by_cases h : src.selectable symbol = true
    · simp only [h, if_true] at he
      exact (downloadLoop_keys src fails symbol timeframes db).1 e he
    · simp [h] at he
  · intro p hp
    unfold download_symbol_data at hp
    by_cases h : src.selectable symbol = true
    · simp only [h, if_true] at hp
      exact (downloadLoop_keys src fails symbol timeframes db).2 p hp
    · simp [h] at hp

/-- Witness for the C10 theorem: with the unsupported tag XX in the request
list, the run equals the run on the filtered list, and the one recorded
entry key H1 is supported. -/
theorem claim_C10_witness :
    download_symbol_data endToEndSource noFailure "EURUSD" ["XX", "H1"]
        ⟨[], []⟩
      = download_symbol_data endToEndSource noFailure "EURUSD"
          (["XX", "H1"].filter (fun tf => timeframe_keys.contains tf))
          ⟨[], []⟩ ∧
    timeframe_keys.contains "H1" = true :=
  ⟨(claim_C10_unsupported_timeframe_skipped endToEndSource noFailure
      "EURUSD" ["XX", "H1"] ⟨[], []⟩).1,
   (claim_C10_unsupported_timeframe_skipped endToEndSource noFailure
      "EURUSD" ["XX", "H1"] ⟨[], []⟩).2.1 ("H1", ⟨3, 3, true⟩) (by decide)⟩

/-- Witness for the amended C2 theorem at the concrete four-record batch. -/
theorem claim_C2_witness :
    save_price_data failsAt42 "S" "H1" batchWithBadThird ⟨[], []⟩
      = (⟨[validRec "S" "H1" 1, validRec "S" "H1" 2], []⟩, 0) :=
  claim_C2_fallback_stops_at_first_failure failsAt42 "S" "H1"
    batchWithBadThird ⟨[], []⟩
    (validRec "S" "H1" 1) (validRec "S" "H1" 42)
    [validRec "S" "H1" 2] [validRec "S" "H1" 3] 0
    (by decide) (by decide) (by decide) (by decide) (by decide) (by decide)

end MT5DB
